import Mathlib

/-!
Shallow embedding of the EdgeWave Nexus edge-function core
(`src/esa-functions/edgeRpcRouter.js` and the ESA Pages Functions entry):
the racing JSON-RPC router (`tryRpc` / `raceRpc`), the DeFi aggregator
(`computeDefi` with its hex decoding helpers) and the tiered cache read
path (`handleEdgeDefiAggregator` with `memGet` / `memPut` /
`kvGetValidPayload` / `kvPutPayload`).

Modelling conventions:
* The JavaScript event loop is modelled by giving every upstream attempt
  an explicit settle time; `Promise.race` picks the attempt with the
  least settle time (ties resolved in list order, as settled callbacks
  are registered in order) and `Promise.any` picks the least settle time
  among fulfilled attempts, rejecting with the list of all failure
  reasons (in input order, as in `AggregateError.errors`) when none
  fulfils.
* `JSON.parse` is a platform primitive, modelled as an oracle: a fetched
  response carries both its raw text and the parse result of that text
  (`none` when the text is not valid JSON).  `JSON.parse` output never
  has duplicate keys in one object, so field lookup by first match is
  exact.
* JavaScript `BigInt` arithmetic is exact integer arithmetic; `BigInt`
  division truncates toward zero (`Int.tdiv`).  `Number` values produced
  by the aggregator are modelled as exact rationals: no claim below
  depends on float rounding, only on control flow and on which value is
  stored.
* Wall-clock time (`Date.now()`, `new Date().toISOString()`) is passed
  explicitly: `now : Int` for millisecond timestamps, `nowIso : String`
  for the ISO timestamp written into snapshots.
-/

/-- JSON values, the output type of the platform `JSON.parse`.
JSON-RPC ids occurring in this code are integers, so numbers are
modelled as `Int`. -/
inductive Json where
  | null : Json
  | bool (b : Bool) : Json
  | num (n : Int) : Json
  | str (s : String) : Json
  | arr (elems : List Json) : Json
  | obj (fields : List (String × Json)) : Json

namespace Json

/-- Field lookup on a parsed JSON object (`x.key`); `none` is JavaScript
`undefined` (key absent or value not an object). -/
def lookupField : Json → String → Option Json
  | .obj fields, k => List.lookup k fields
  | _, _ => none

/-- JavaScript `typeof x === "object"` for truthy `x`: objects and
arrays (JSON `null` is excluded separately by the truthiness guard). -/
def isJsObject : Json → Bool
  | .obj _ => true
  | .arr _ => true
  | _ => false

/-- JavaScript `"error" in x` for a truthy object `x`: key presence on
an object; an array has no string property named `error`. -/
def hasErrorKey : Json → Bool
  | .obj fields => fields.any (fun f => f.1 == "error")
  | _ => false

end Json

/-- The `hasJsonRpcError` test of `tryRpc`: for an array payload, some
element that is a truthy object carrying an `error` key; otherwise the
envelope itself is a truthy object carrying an `error` key. -/
def hasJsonRpcError (json : Json) : Bool :=
  match json with
  | .arr xs => xs.any (fun x => x.isJsObject && x.hasErrorKey)
  | j => j.isJsObject && j.hasErrorKey

/-- Outcome of the platform `fetch` for one attempt: either the fetch
itself threw (network error, timeout abort), or a response with an HTTP
status, a body text, and the parse oracle for that text. -/
inductive FetchResult where
  | netError (msg : String) : FetchResult
  | response (status : Nat) (text : String) (parsed : Option Json) : FetchResult

/-- Value returned by a successful `tryRpc` (`{ url, text, elapsedMs }`;
the elapsed duration is timing metadata irrelevant to the claims, and
`parsed` records the parse oracle of `text` for the aggregator's later
`JSON.parse(fastest.text)`). -/
structure RpcSuccess where
  url : String
  text : String
  parsed : Option Json

/-- HTTP `res.ok`: status in the inclusive range 200–299. -/
def httpOk (status : Nat) : Bool :=
  200 ≤ status && status ≤ 299

/-- Embedding of `tryRpc` (classification part): non-2xx status, a body
that fails to parse, or a JSON-RPC `error` field each throw; otherwise
the attempt fulfils with the raw body. -/
def tryRpc (url : String) (fetched : FetchResult) : Except String RpcSuccess :=
  match fetched with
  | .netError msg => .error msg
  | .response status text parsed =>
    if !httpOk status then .error ("HTTP " ++ toString status)
    else
      match parsed with
      | none => .error "Invalid JSON"
      | some json =>
        if hasJsonRpcError json then .error "JSON-RPC error"
        else .ok ⟨url, text, parsed⟩

/-- Behaviour of one upstream endpoint in a given race: its URL, the
time at which its attempt settles, and what its fetch produced. -/
structure EndpointBehavior where
  url : String
  settleTime : Nat
  fetched : FetchResult

/-- One dispatched attempt: its settle time and its settled outcome. -/
structure Attempt where
  settleTime : Nat
  result : Except String RpcSuccess

/-- The attempt `tryRpc(u, payloadText, parentSignal)` dispatched for
one endpoint. -/
def attemptOf (e : EndpointBehavior) : Attempt :=
  ⟨e.settleTime, tryRpc e.url e.fetched⟩

/-- Decide whether an `Except` is a success. -/
def exceptOk {ε α : Type} : Except ε α → Bool
  | .ok _ => true
  | .error _ => false

/-- First element of least `time` (ties keep the earlier element),
modelling which of a set of promises settles first. -/
def earliest {α : Type} (time : α → Nat) : List α → Option α
  | [] => none
  | x :: xs =>
    match earliest time xs with
    | none => some x
    | some y => if time y < time x then some y else some x

/-- `Promise.race`: the first attempt to settle at all, `none` on an
empty list (an empty race never settles). -/
def promiseRace (attempts : List Attempt) : Option Attempt :=
  earliest Attempt.settleTime attempts

/-- Fulfilled attempts, paired with their settle times. -/
def successesOf (attempts : List Attempt) : List (Nat × RpcSuccess) :=
  attempts.filterMap (fun a =>
    match a.result with
    | .ok r => some (a.settleTime, r)
    | .error _ => none)

/-- Rejection reasons of all rejected attempts, in input order. -/
def failureReasons (attempts : List Attempt) : List String :=
  attempts.filterMap (fun a =>
    match a.result with
    | .ok _ => none
    | .error e => some e)

/-- `Promise.any`: the first attempt to fulfil; if none does, reject
with an `AggregateError` carrying every attempt's rejection reason. -/
def promiseAny (attempts : List Attempt) : Except (List String) RpcSuccess :=
  match earliest Prod.fst (successesOf attempts) with
  | some (_, r) => .ok r
  | none => .error (failureReasons attempts)

/-- Embedding of `raceRpc`: phase 1 awaits `Promise.race` and returns
its value when the fastest-settled attempt fulfilled; on rejection it
downgrades to `Promise.any`.  `none` models non-termination (an empty
endpoint list never settles); the `error` case is the `AggregateError`
(`AllEndpointsFailed`). -/
def raceRpc (env : List EndpointBehavior) : Option (Except (List String) RpcSuccess) :=
  let attempts := env.map attemptOf
  match promiseRace attempts with
  | none => none
  | some fastestSettled =>
    match fastestSettled.result with
    | .ok r => some (.ok r)
    | .error _ => some (promiseAny attempts)

/-! Aggregator: hex decoding and `computeDefi`. -/

/-- Value of one hexadecimal digit. -/
def hexDigitVal (c : Char) : Option Nat :=
  if '0' ≤ c ∧ c ≤ '9' then some (c.toNat - 48)
  else if 'a' ≤ c ∧ c ≤ 'f' then some (c.toNat - 87)
  else if 'A' ≤ c ∧ c ≤ 'F' then some (c.toNat - 55)
  else none

/-- Parse a non-empty list of hexadecimal digits (the part after the
`0x` prefix accepted by `BigInt`); `none` when empty or when a
character is not a hex digit (`BigInt` throws a `SyntaxError`). -/
def parseHexDigits (cs : List Char) : Option Nat :=
  match cs with
  | [] => none
  | _ => cs.foldlM (fun acc c => (hexDigitVal c).map (fun d => acc * 16 + d)) 0

/-- Embedding of `hexToBigInt`: the argument must be a string starting
with `0x` (otherwise `Invalid hex` is thrown), and `BigInt(hex)` must
parse the remaining hex digits (otherwise a `SyntaxError` is thrown).
The argument is an `Option Json` because `item.result` may be absent
(JavaScript `undefined`, which is not a string). -/
def hexToBigInt (hex : Option Json) : Except String Int :=
  match hex with
  | some (.str s) =>
    match s.toList with
    | '0' :: 'x' :: rest =>
      match parseHexDigits rest with
      | some n => .ok (n : Int)
      | none => .error "SyntaxError"
    | _ => .error "Invalid hex"
  | _ => .error "Invalid hex"

/-- Embedding of `bigIntToNumberSafe`: `Number(value / scale)` with
`BigInt` division truncating toward zero; on arithmetic failure
(division by zero throws, non-finite conversion) the catch produces `0`
— `Int.tdiv` by zero is `0`, matching. -/
def bigIntToNumberSafe (value scale : Int) : ℚ :=
  ((value.tdiv scale : Int) : ℚ)

/-- Whether a parsed batch element is stored in the id `Map` under the
integer key `id`: `new Map(results.map((r) => [r?.id, r]))` keys each
element by its `id` property (`undefined` for non-objects), so only an
object whose `id` field is the number `id` matches. -/
def hasId (r : Json) (id : Int) : Bool :=
  match r.lookupField "id" with
  | some (.num n) => n == id
  | _ => false

/-- `map.get(id)` for the batch-result `Map`: of the elements keyed by
`id`, the last one wins (later `Map.set` overwrites earlier). -/
def batchMapGet (results : List Json) (id : Int) : Option Json :=
  (results.filter (fun r => hasId r id)).getLast?

/-- Embedding of `getBatchResult`: a missing id throws, an entry
carrying an `error` key throws, otherwise the entry's `result` field
(possibly `undefined`) is returned. -/
def getBatchResult (results : List Json) (id : Int) : Except String (Option Json) :=
  match batchMapGet results id with
  | none => .error ("Missing batch result id=" ++ toString id)
  | some item =>
    if item.hasErrorKey then .error ("Batch JSON-RPC error id=" ++ toString id)
    else .ok (item.lookupField "result")

/-- One protocol's metrics inside a snapshot. -/
structure SourceMetric where
  tvlUsdApprox : ℚ
  volumeUsdApprox24h : ℚ
  health : String
  notes : String
deriving DecidableEq

/-- The three aggregated protocols. -/
structure ProtocolsData where
  uniswap_v3 : SourceMetric
  aave : SourceMetric
  compound : SourceMetric
deriving DecidableEq

/-- The aggregator's snapshot object. -/
structure Snapshot where
  updatedAt : String
  source : String
  chainId : Nat
  blockNumber : Option Int
  protocols : ProtocolsData
deriving DecidableEq

/-- Embedding of `buildEmpty`. -/
def buildEmpty (nowIso : String) : Snapshot :=
  { updatedAt := nowIso
    source := "edge"
    chainId := 1
    blockNumber := none
    protocols :=
      { uniswap_v3 := ⟨0, 0, "degraded", "暂无数据"⟩
        aave := ⟨0, 0, "degraded", "暂无数据"⟩
        compound := ⟨0, 0, "degraded", "暂无数据"⟩ } }

/-- The per-source block for Uniswap V3 (batch id 2): on success the
liquidity is scaled by `10^12` and the delta-based volume proxy uses
weight `0.25`; the catch keeps the current metric and marks it
degraded. -/
def uniswapStep (results : List Json) (cur : SourceMetric) : SourceMetric :=
  match getBatchResult results 2 >>= hexToBigInt with
  | .ok liq =>
    let tvl := bigIntToNumberSafe liq (10 ^ 12)
    { tvlUsdApprox := tvl
      volumeUsdApprox24h := |tvl - cur.tvlUsdApprox| * (25 / 100 : ℚ)
      health := "ok"
      notes := "tvlUsdApprox 由 pool.liquidity() 推导（代理信号）" }
  | .error _ => { cur with health := "degraded", notes := "Uniswap V3 信号获取失败" }

/-- The per-source block for Aave (batch id 3): supply scaled by
`10^6`, volume weight `0.2`. -/
def aaveStep (results : List Json) (cur : SourceMetric) : SourceMetric :=
  match getBatchResult results 3 >>= hexToBigInt with
  | .ok supply =>
    let tvl := bigIntToNumberSafe supply (10 ^ 6)
    { tvlUsdApprox := tvl
      volumeUsdApprox24h := |tvl - cur.tvlUsdApprox| * (20 / 100 : ℚ)
      health := "ok"
      notes := "tvlUsdApprox 由 aUSDC.totalSupply() 推导（代理信号）" }
  | .error _ => { cur with health := "degraded", notes := "Aave 信号获取失败（检查 aUSDC 地址）" }

/-- The per-source block for Compound (batch ids 4 and 5):
`totalSupply * exchangeRateStored / 10^18` scaled by `10^6`, volume
weight `0.15`. -/
def compoundStep (results : List Json) (cur : SourceMetric) : SourceMetric :=
  match getBatchResult results 4 >>= hexToBigInt, getBatchResult results 5 >>= hexToBigInt with
  | .ok totalSupply, .ok exchangeRate =>
    let underlying := (totalSupply * exchangeRate).tdiv (10 ^ 18)
    let tvl := bigIntToNumberSafe underlying (10 ^ 6)
    { tvlUsdApprox := tvl
      volumeUsdApprox24h := |tvl - cur.tvlUsdApprox| * (15 / 100 : ℚ)
      health := "ok"
      notes := "tvlUsdApprox 由 cUSDC.totalSupply()*exchangeRateStored() 推导（代理信号）" }
  | _, _ => { cur with health := "degraded", notes := "Compound 信号获取失败" }

/-- The note written on every source when the whole batch race fails. -/
def batchFailNote : String := "RPC 批量请求失败"

/-- Embedding of `computeDefi`, parameterised by the outcome of the
`raceRpc` call (the network environment's behaviour).  Returns the new
snapshot together with the `rpc` component (`none` when the batch race
failed or its body was not a JSON array). -/
def computeDefi (nowIso : String) (prev : Option Snapshot)
    (race : Except (List String) RpcSuccess) : Snapshot × Option RpcSuccess :=
  let base := prev.getD (buildEmpty nowIso)
  let next0 : Snapshot :=
    { base with updatedAt := nowIso, source := "edge", chainId := 1 }
  match race with
  | .error _ =>
    ({ next0 with protocols :=
        { uniswap_v3 := { next0.protocols.uniswap_v3 with health := "degraded", notes := batchFailNote }
          aave := { next0.protocols.aave with health := "degraded", notes := batchFailNote }
          compound := { next0.protocols.compound with health := "degraded", notes := batchFailNote } } },
      none)
  | .ok fastest =>
    match fastest.parsed with
    | some (.arr results) =>
      let withBn : Snapshot :=
        match getBatchResult results 1 >>= hexToBigInt with
        | .ok bn => { next0 with blockNumber := some bn }
        | .error _ => next0
      ({ withBn with protocols :=
          { uniswap_v3 := uniswapStep results next0.protocols.uniswap_v3
            aave := aaveStep results next0.protocols.aave
            compound := compoundStep results next0.protocols.compound } },
        some fastest)
    | _ => (next0, none)

/-! Tiered cache (memory tier, durable EdgeKV tier) and the
`/edge/defi` read path. -/

/-- Fixed snapshot TTL, `DEFI_TTL_MS = 30 * 1000`. -/
def DEFI_TTL_MS : Int := 30 * 1000

/-- A cached value as stored and served: the snapshot together with its
`cache` annotation `{ hit, layer, ttlMs }` (`ttlMs` is always the
constant `DEFI_TTL_MS` and is omitted). -/
structure CachedSnapshot where
  snap : Snapshot
  hit : Bool
  layer : String
deriving DecidableEq

/-- Memory-tier entry `{ expiresAt, payload }`. -/
structure MemEntry where
  expiresAt : Int
  payload : CachedSnapshot
deriving DecidableEq

/-- The process-local `Map` of the memory tier, as an association list
with unique keys (newest binding first). -/
abbrev MemCache := List (String × MemEntry)

/-- Delete a key from an association list (`Map.delete` / overwrite). -/
def eraseKey {α : Type} (key : String) (m : List (String × α)) : List (String × α) :=
  m.filter (fun p => !(p.1 == key))

/-- Embedding of `memGet`: a present entry read strictly past its
`expiresAt` is deleted and reported as a miss; otherwise its payload is
served.  Returns the (possibly evicted) new cache as well. -/
def memGet (now : Int) (mem : MemCache) (key : String) :
    Option CachedSnapshot × MemCache :=
  match List.lookup key mem with
  | none => (none, mem)
  | some entry =>
    if now > entry.expiresAt then (none, eraseKey key mem)
    else (some entry.payload, mem)

/-- Embedding of `memPut`: store `{ expiresAt: Date.now() + ttlMs,
payload }` under `key`. -/
def memPut (now : Int) (key : String) (payload : CachedSnapshot) (ttlMs : Int)
    (mem : MemCache) : MemCache :=
  (key, ⟨now + ttlMs, payload⟩) :: eraseKey key mem

/-- Durable-tier envelope `{ expiresAt, payload }` as serialised by
`kvPutPayload` (the JSON round trip through the store is the
identity on this structured value). -/
structure KvEnvelope where
  expiresAt : Int
  payload : CachedSnapshot
deriving DecidableEq

/-- The durable EdgeKV namespace, keyed like the memory tier. -/
abbrev KvStore := List (String × KvEnvelope)

/-- Embedding of `kvGetValidPayload`: a stored envelope read strictly
past its embedded `expiresAt` is a miss; otherwise its payload is
served. -/
def kvGetValidPayload (now : Int) (kv : KvStore) (key : String) :
    Option CachedSnapshot :=
  match List.lookup key kv with
  | none => none
  | some envl =>
    if now > envl.expiresAt then none else some envl.payload

/-- Embedding of `kvPutPayload`: store the envelope
`{ expiresAt: Date.now() + ttlMs, payload }` under `key`. -/
def kvPutPayload (now : Int) (key : String) (payload : CachedSnapshot) (ttlMs : Int)
    (kv : KvStore) : KvStore :=
  (key, ⟨now + ttlMs, payload⟩) :: eraseKey key kv

/-- Mutable state visible to one `/edge/defi` request: the memory tier
and, when a durable binding is available (`getKv` returned non-null),
the durable tier. -/
structure HandlerState where
  mem : MemCache
  kv : Option KvStore
deriving DecidableEq

/-- The live (tier 3) path of the handler: look up `prev` as
`memGet(key) || kvGetValidPayload(kv, key)`, recompute the snapshot,
annotate it `{ hit: false, layer: "live" }`, and write it through to
the memory tier and (when available) the durable tier with the full
TTL.  The final `Bool` records that a live recomputation (one Router
race) happened. -/
def liveDefi (key : String) (now : Int) (nowIso : String)
    (race : Except (List String) RpcSuccess) (mem : MemCache) (kv : Option KvStore) :
    CachedSnapshot × HandlerState × Bool :=
  let memLook := memGet now mem key
  let prev : Option CachedSnapshot :=
    match memLook.1 with
    | some p => some p
    | none =>
      match kv with
      | some kvs => kvGetValidPayload now kvs key
      | none => none
  let computed := computeDefi nowIso (prev.map CachedSnapshot.snap) race
  let final : CachedSnapshot := ⟨computed.1, false, "live"⟩
  let mem2 := memPut now key final DEFI_TTL_MS memLook.2
  let kv2 := kv.map (fun kvs => kvPutPayload now key final DEFI_TTL_MS kvs)
  (final, ⟨mem2, kv2⟩, true)

/-- Embedding of the `handleEdgeDefiAggregator` read path (the
`GET /edge/defi` cache logic): with `force` the tiers are not consulted
for serving; otherwise memory is consulted first, then the durable
tier (whose hit is promoted into memory with the full TTL), then the
live path.  Returns the served value, the new state, and whether a
live recomputation happened. -/
def handleEdgeDefiAggregator (key : String) (now : Int) (nowIso : String)
    (force : Bool) (race : Except (List String) RpcSuccess) (st : HandlerState) :
    CachedSnapshot × HandlerState × Bool :=
  if force then
    liveDefi key now nowIso race st.mem st.kv
  else
    let memLook := memGet now st.mem key
    match memLook.1 with
    | some memHit =>
      (⟨memHit.snap, true, "memory"⟩, ⟨memLook.2, st.kv⟩, false)
    | none =>
      match st.kv with
      | some kvs =>
        match kvGetValidPayload now kvs key with
        | some kvHit =>
          let mem2 := memPut now key kvHit DEFI_TTL_MS memLook.2
          (⟨kvHit.snap, true, "kv"⟩, ⟨mem2, st.kv⟩, false)
        | none => liveDefi key now nowIso race memLook.2 st.kv
      | none => liveDefi key now nowIso race memLook.2 st.kv

/-! Shared lemmas about the race model. -/

theorem earliest_isSome {α : Type} (time : α → Nat) (l : List α) (h : l ≠ []) :
    (earliest time l).isSome := by
  cases l with
  | nil => exact absurd rfl h
  | cons x xs =>
    simp only [earliest]
    cases earliest time xs with
    | none => rfl
    | some y => by_cases hlt : time y < time x <;> simp [hlt]

theorem earliest_mem {α : Type} (time : α → Nat) :
    ∀ (l : List α) (a : α), earliest time l = some a → a ∈ l := by
  intro l
  induction l with
  | nil => intro a ha; simp [earliest] at ha
  | cons x xs ih =>
    intro a ha
    simp only [earliest] at ha
    cases hxs : earliest time xs with
    | none =>
      rw [hxs] at ha
      simp at ha
      exact ha ▸ List.mem_cons_self x xs
    | some y =>
      rw [hxs] at ha
      by_cases hlt : time y < time x
      · simp [hlt] at ha
        exact List.mem_cons_of_mem x (ha ▸ ih y hxs)
      · simp [hlt] at ha
        exact ha ▸ List.mem_cons_self x xs

theorem earliest_le {α : Type} (time : α → Nat) :
    ∀ (l : List α) (a : α), earliest time l = some a → ∀ b ∈ l, time a ≤ time b := by
  intro l
  induction l with
  | nil => intro a ha; simp [earliest] at ha
  | cons x xs ih =>
    intro a ha b hb
    simp only [earliest] at ha
    cases hxs : earliest time xs with
    | none =>
      rw [hxs] at ha
      simp at ha
      have hxsnil : xs = [] := by
        by_contra hne
        have hs := earliest_isSome time xs hne
        rw [hxs] at hs
        simp at hs
      subst hxsnil
      have hbx : b = x := List.mem_singleton.mp hb
      subst hbx
      exact le_of_eq (congrArg time ha.symm)
    | some y =>
      rw [hxs] at ha
      by_cases hlt : time y < time x
      · simp [hlt] at ha
        rcases List.mem_cons.mp hb with hbx | hbxs
        · subst hbx
          exact le_of_lt (ha ▸ hlt)
        · exact ha ▸ ih y hxs b hbxs
      · simp [hlt] at ha
        rcases List.mem_cons.mp hb with hbx | hbxs
        · subst hbx
          exact le_of_eq (congrArg time ha.symm)
        · calc time a = time x := congrArg time ha.symm
            _ ≤ time y := le_of_not_lt hlt
            _ ≤ time b := ih y hxs b hbxs

theorem mem_successesOf {attempts : List Attempt} {t : Nat} {r : RpcSuccess} :
    (t, r) ∈ successesOf attempts ↔
      ∃ a ∈ attempts, a.settleTime = t ∧ a.result = .ok r := by
  simp only [successesOf, List.mem_filterMap]
  constructor
  · rintro ⟨a, ha, hfa⟩
    cases hres : a.result with
    | ok r' =>
      rw [hres] at hfa
      simp at hfa
      exact ⟨a, ha, hfa.1, by rw [hres, hfa.2]⟩
    | error e => rw [hres] at hfa; simp at hfa
  · rintro ⟨a, ha, hts, hres⟩
    exact ⟨a, ha, by rw [hres, hts]⟩

theorem successesOf_eq_nil {attempts : List Attempt}
    (h : ∀ a ∈ attempts, exceptOk a.result = false) :
    successesOf attempts = [] := by
  refine List.filterMap_eq_nil_iff.mpr (fun a ha => ?_)
  cases hres : a.result with
  | ok r => have := h a ha; rw [hres] at this; simp [exceptOk] at this
  | error e => simp [hres]

theorem raceRpc_phase2 {env : List EndpointBehavior} {f : Attempt} {msg : String}
    (hf : promiseRace (env.map attemptOf) = some f) (hr : f.result = .error msg) :
    raceRpc env = some (promiseAny (env.map attemptOf)) := by
  simp only [raceRpc, hf, hr]

theorem raceRpc_phase1 {env : List EndpointBehavior} {f : Attempt} {r : RpcSuccess}
    (hf : promiseRace (env.map attemptOf) = some f) (hr : f.result = .ok r) :
    raceRpc env = some (.ok r) := by
  simp only [raceRpc, hf, hr]

theorem promiseAny_of_success {attempts : List Attempt}
    (h : ∃ a ∈ attempts, exceptOk a.result = true) :
    ∃ t r, earliest Prod.fst (successesOf attempts) = some (t, r) ∧
      promiseAny attempts = .ok r ∧
      (∃ a ∈ attempts, a.settleTime = t ∧ a.result = .ok r) ∧
      (∀ b ∈ attempts, ∀ rb, b.result = .ok rb → t ≤ b.settleTime) := by
  obtain ⟨a, ha, hok⟩ := h
  cases hres : a.result with
  | error e => rw [hres] at hok; simp [exceptOk] at hok
  | ok r0 =>
    have hmem : (a.settleTime, r0) ∈ successesOf attempts :=
      mem_successesOf.mpr ⟨a, ha, rfl, hres⟩
    have hne : successesOf attempts ≠ [] := List.ne_nil_of_mem hmem
    obtain ⟨p, hp⟩ := Option.isSome_iff_exists.mp (earliest_isSome _ _ hne)
    obtain ⟨t, r⟩ := p
    refine ⟨t, r, hp, ?_, ?_, ?_⟩
    · simp [promiseAny, hp]
    · exact mem_successesOf.mp (earliest_mem _ _ _ hp)
    · intro b hb rb hrb
      have hbmem : (b.settleTime, rb) ∈ successesOf attempts :=
        mem_successesOf.mpr ⟨b, hb, rfl, hrb⟩
      exact earliest_le _ _ _ hp _ hbmem

theorem promiseAny_allFail {attempts : List Attempt}
    (h : ∀ a ∈ attempts, exceptOk a.result = false) :
    promiseAny attempts = .error (failureReasons attempts) := by
  simp [promiseAny, successesOf_eq_nil h, earliest]

/-- C1: when the fastest-settled attempt is a failure but some attempt
succeeds, `raceRpc` downgrades and returns the earliest-settling
successful attempt among all endpoints: a fast failure never causes an
overall failure when a slower endpoint succeeds. -/
theorem raceRpc_downgrade_returns_first_success
    (env : List EndpointBehavior) (f : Attempt)
    (hf : promiseRace (env.map attemptOf) = some f)
    (hfail : exceptOk f.result = false)
    (hsucc : ∃ e ∈ env, exceptOk (attemptOf e).result = true) :
    ∃ a ∈ env.map attemptOf, ∃ r, a.result = .ok r ∧
      (∀ b ∈ env.map attemptOf, ∀ rb, b.result = .ok rb → a.settleTime ≤ b.settleTime) ∧
      raceRpc env = some (.ok r) := by
  cases hres : f.result with
  | ok r => rw [hres] at hfail; simp [exceptOk] at hfail
  | error msg =>
    have h2 := raceRpc_phase2 hf hres
    have hs : ∃ a ∈ env.map attemptOf, exceptOk a.result = true := by
      obtain ⟨e, he, hoke⟩ := hsucc
      exact ⟨attemptOf e, List.mem_map_of_mem _ he, hoke⟩
    obtain ⟨t, r, hp, hany, ⟨a, hamem, hat, har⟩, hmin⟩ := promiseAny_of_success hs
    refine ⟨a, hamem, r, har, ?_, ?_⟩
    · intro b hb rb hrb
      rw [hat]
      exact hmin b hb rb hrb
    · rw [h2, hany]

/-- C3: for a non-empty endpoint set, `raceRpc` rejects (the
`AllEndpointsFailed` aggregate) exactly when every attempt is
classified a failure; in that case the aggregate carries every
per-endpoint failure reason, and as soon as one attempt is classified
successful the race resolves with a success. -/
theorem raceRpc_allEndpointsFailed_iff (env : List EndpointBehavior) (hne : env ≠ []) :
    ((∃ errs, raceRpc env = some (.error errs)) ↔
      ∀ e ∈ env, exceptOk (attemptOf e).result = false) ∧
    ((∀ e ∈ env, exceptOk (attemptOf e).result = false) →
      raceRpc env = some (.error (failureReasons (env.map attemptOf)))) ∧
    ((∃ e ∈ env, exceptOk (attemptOf e).result = true) →
      ∃ r, raceRpc env = some (.ok r)) := by
  have hmapne : env.map attemptOf ≠ [] := by
    intro h; apply hne; simpa using h
  obtain ⟨f, hf0⟩ := Option.isSome_iff_exists.mp (earliest_isSome Attempt.settleTime _ hmapne)
  have hf : promiseRace (env.map attemptOf) = some f := hf0
  have hsucc_case : (∃ e ∈ env, exceptOk (attemptOf e).result = true) →
      ∃ r, raceRpc env = some (.ok r) := by
    intro hs
    cases hres : f.result with
    | ok r => exact ⟨r, raceRpc_phase1 hf hres⟩
    | error msg =>
      have hs' : ∃ a ∈ env.map attemptOf, exceptOk a.result = true := by
        obtain ⟨e, he, hoke⟩ := hs
        exact ⟨attemptOf e, List.mem_map_of_mem _ he, hoke⟩
      obtain ⟨t, r, hp, hany, _, _⟩ := promiseAny_of_success hs'
      exact ⟨r, by rw [raceRpc_phase2 hf hres, hany]⟩
  have hfail_case : (∀ e ∈ env, exceptOk (attemptOf e).result = false) →
      raceRpc env = some (.error (failureReasons (env.map attemptOf))) := by
    intro hall
    have hall' : ∀ a ∈ env.map attemptOf, exceptOk a.result = false := by
      intro a ha
      obtain ⟨e, he, rfl⟩ := List.mem_map.mp ha
      exact hall e he
    cases hres : f.result with
    | ok r =>
      have hfmem := hall' f (earliest_mem _ _ _ hf0)
      rw [hres] at hfmem
      simp [exceptOk] at hfmem
    | error msg =>
      rw [raceRpc_phase2 hf hres, promiseAny_allFail hall']
  refine ⟨⟨?_, ?_⟩, hfail_case, hsucc_case⟩
  · rintro ⟨errs, herrs⟩
    by_contra hnot
    push_neg at hnot
    obtain ⟨e, he, hoke⟩ := hnot
    obtain ⟨r, hr⟩ := hsucc_case ⟨e, he, by simpa using hoke⟩
    rw [hr] at herrs
    simp at herrs
  · intro hall
    exact ⟨_, hfail_case hall⟩

/-- Endpoint that settles first (time 1) with an HTTP 500. -/
def epFail : EndpointBehavior :=
  ⟨"https://fail.example", 1, .response 500 "bad-gateway" none⟩

/-- A parsed JSON-RPC success envelope. -/
def okBody : Json :=
  .obj [("jsonrpc", .str "2.0"), ("id", .num 1), ("result", .str "0x10")]

/-- Endpoint that settles later (time 7) with a valid result. -/
def epOkSlow : EndpointBehavior :=
  ⟨"https://slow.example", 7, .response 200 "rpc-result-body" (some okBody)⟩

/-- Endpoint whose fetch aborts (per-attempt timeout). -/
def epTimeout : EndpointBehavior :=
  ⟨"https://hang.example", 3, .netError "timeout"⟩

theorem raceRpc_downgrade_returns_first_success_witness :
    (promiseRace ([epFail, epOkSlow].map attemptOf) = some (attemptOf epFail) ∧
     exceptOk (attemptOf epFail).result = false ∧
     (∃ e ∈ [epFail, epOkSlow], exceptOk (attemptOf e).result = true)) ∧
    (∃ a ∈ [epFail, epOkSlow].map attemptOf, ∃ r, a.result = .ok r ∧
      (∀ b ∈ [epFail, epOkSlow].map attemptOf, ∀ rb, b.result = .ok rb →
        a.settleTime ≤ b.settleTime) ∧
      raceRpc [epFail, epOkSlow] = some (.ok r)) :=
  ⟨⟨rfl, rfl, ⟨epOkSlow, List.mem_cons_of_mem epFail (List.mem_cons_self epOkSlow []), rfl⟩⟩,
   raceRpc_downgrade_returns_first_success [epFail, epOkSlow] (attemptOf epFail) rfl rfl
     ⟨epOkSlow, List.mem_cons_of_mem epFail (List.mem_cons_self epOkSlow []), rfl⟩⟩

theorem raceRpc_allEndpointsFailed_iff_witness :
    ([epFail, epTimeout] ≠ ([] : List EndpointBehavior)) ∧
    raceRpc [epFail, epTimeout] = some (.error ["HTTP 500", "timeout"]) ∧
    ((∃ errs, raceRpc [epFail, epTimeout] = some (.error errs)) ↔
      ∀ e ∈ [epFail, epTimeout], exceptOk (attemptOf e).result = false) := by
  obtain ⟨hiff, hfail, hsucc⟩ :=
    raceRpc_allEndpointsFailed_iff [epFail, epTimeout] (List.cons_ne_nil _ _)
  refine ⟨List.cons_ne_nil _ _, ?_, hiff⟩
  have hall : ∀ e ∈ [epFail, epTimeout], exceptOk (attemptOf e).result = false := by
    intro e he
    rcases List.mem_cons.mp he with rfl | he2
    · rfl
    · rcases List.mem_cons.mp he2 with rfl | he3
      · rfl
      · exact absurd he3 (List.not_mem_nil e)
  rw [hfail hall]
  rfl

/-- Restatement of the specification's failure-classification sentence,
word for word: the envelope, or any element of it when the payload was
a batch, contains an `error` field. -/
def specEnvelopeHasError (json : Json) : Bool :=
  match json with
  | .arr xs => xs.any Json.hasErrorKey
  | j => j.hasErrorKey

/-- Restatement of the specification's per-attempt rule: a failure iff
the HTTP status is non-2xx, or the body fails to parse as JSON, or the
decoded envelope contains an `error` field. -/
def specAttemptIsFailure (status : Nat) (parsed : Option Json) : Prop :=
  ¬ (200 ≤ status ∧ status ≤ 299) ∨ parsed = none ∨
    ∃ j, parsed = some j ∧ specEnvelopeHasError j = true

theorem isJsObject_and_hasErrorKey (x : Json) :
    (x.isJsObject && x.hasErrorKey) = x.hasErrorKey := by
  cases x <;> simp [Json.isJsObject, Json.hasErrorKey]

theorem hasJsonRpcError_eq_spec (j : Json) :
    hasJsonRpcError j = specEnvelopeHasError j := by
  cases j with
  | arr xs =>
    show (xs.any fun x => x.isJsObject && x.hasErrorKey) = xs.any Json.hasErrorKey
    induction xs with
    | nil => rfl
    | cons x xs ih => simp only [List.any_cons, ih, isJsObject_and_hasErrorKey]
  | obj fields => exact isJsObject_and_hasErrorKey (.obj fields)
  | null => rfl
  | bool b => rfl
  | num n => rfl
  | str s => rfl

/-- C2: an attempt on an upstream response is classified a failure by
`tryRpc` exactly when the HTTP status is non-2xx, or the body does not
parse as JSON, or the decoded JSON-RPC envelope (or, for a batch, some
element of the decoded array) contains an `error` field; in particular
a parsed envelope without an `error` field — whatever its `result`,
including `null` or zero — is classified a success. -/
theorem tryRpc_failure_classification (url : String) (status : Nat)
    (text : String) (parsed : Option Json) :
    exceptOk (tryRpc url (.response status text parsed)) = false ↔
      specAttemptIsFailure status parsed := by
  unfold tryRpc specAttemptIsFailure
  cases parsed with
  | none =>
    by_cases hok : httpOk status = true
    · simp [hok, exceptOk]
    · simp only [Bool.not_eq_true] at hok
      simp [hok, exceptOk]
  | some j =>
    by_cases hok : httpOk status = true
    · have hok' : ¬ ¬ (200 ≤ status ∧ status ≤ 299) := by
        simp [httpOk] at hok
        simp [hok]
      by_cases herr : hasJsonRpcError j = true
      · have herr' : specEnvelopeHasError j = true := by
          rw [← hasJsonRpcError_eq_spec]; exact herr
        simp [hok, herr, exceptOk, hok', herr']
      · simp only [Bool.not_eq_true] at herr
        have herr' : specEnvelopeHasError j = false := by
          rw [← hasJsonRpcError_eq_spec]; exact herr
        simp [hok, herr, exceptOk, hok', herr']
    · simp only [Bool.not_eq_true] at hok
      have hok' : ¬ (200 ≤ status ∧ status ≤ 299) := by
        simp [httpOk] at hok
        intro h1
        omega
      simp [hok, exceptOk, hok']

/-- C4: when the batch race fails entirely (`AllEndpointsFailed`),
`computeDefi` marks every source degraded with the batch-failure note,
keeps every source's previous primary value and volume (and the
previous block number), and returns early with no `rpc` component (no
per-source decoding happens). -/
theorem computeDefi_batch_failure_degrades_all (nowIso : String)
    (prev : Option Snapshot) (errs : List String) :
    let base := prev.getD (buildEmpty nowIso)
    let out := computeDefi nowIso prev (.error errs)
    out.2 = none ∧
    out.1.protocols.uniswap_v3.health = "degraded" ∧
    out.1.protocols.uniswap_v3.notes = batchFailNote ∧
    out.1.protocols.uniswap_v3.tvlUsdApprox = base.protocols.uniswap_v3.tvlUsdApprox ∧
    out.1.protocols.uniswap_v3.volumeUsdApprox24h = base.protocols.uniswap_v3.volumeUsdApprox24h ∧
    out.1.protocols.aave.health = "degraded" ∧
    out.1.protocols.aave.notes = batchFailNote ∧
    out.1.protocols.aave.tvlUsdApprox = base.protocols.aave.tvlUsdApprox ∧
    out.1.protocols.aave.volumeUsdApprox24h = base.protocols.aave.volumeUsdApprox24h ∧
    out.1.protocols.compound.health = "degraded" ∧
    out.1.protocols.compound.notes = batchFailNote ∧
    out.1.protocols.compound.tvlUsdApprox = base.protocols.compound.tvlUsdApprox ∧
    out.1.protocols.compound.volumeUsdApprox24h = base.protocols.compound.volumeUsdApprox24h ∧
    out.1.blockNumber = base.blockNumber := by
  simp [computeDefi]

/-- C5: on batch success each sub-result is decoded independently: a
missing sub-call id or an entry carrying a JSON-RPC `error` is a
per-source failure (that source is marked degraded and keeps its
previous primary value, or zero when no previous snapshot existed),
never a batch failure (the `rpc` component stays set), while every
source whose sub-calls decode is marked ok and carries the newly
decoded value. -/
theorem computeDefi_per_source_isolation (nowIso : String) (prev : Option Snapshot)
    (fastest : RpcSuccess) (results : List Json)
    (hp : fastest.parsed = some (.arr results)) :
    (computeDefi nowIso prev (.ok fastest)).2 = some fastest ∧
    (prev = none →
      (prev.getD (buildEmpty nowIso)).protocols.uniswap_v3.tvlUsdApprox = 0 ∧
      (prev.getD (buildEmpty nowIso)).protocols.aave.tvlUsdApprox = 0 ∧
      (prev.getD (buildEmpty nowIso)).protocols.compound.tvlUsdApprox = 0) ∧
    (match getBatchResult results 2 >>= hexToBigInt with
     | .ok liq =>
        (computeDefi nowIso prev (.ok fastest)).1.protocols.uniswap_v3.health = "ok" ∧
        (computeDefi nowIso prev (.ok fastest)).1.protocols.uniswap_v3.tvlUsdApprox =
          bigIntToNumberSafe liq (10 ^ 12)
     | .error _ =>
        (computeDefi nowIso prev (.ok fastest)).1.protocols.uniswap_v3.health = "degraded" ∧
        (computeDefi nowIso prev (.ok fastest)).1.protocols.uniswap_v3.tvlUsdApprox =
          (prev.getD (buildEmpty nowIso)).protocols.uniswap_v3.tvlUsdApprox) ∧
    (match getBatchResult results 3 >>= hexToBigInt with
     | .ok supply =>
        (computeDefi nowIso prev (.ok fastest)).1.protocols.aave.health = "ok" ∧
        (computeDefi nowIso prev (.ok fastest)).1.protocols.aave.tvlUsdApprox =
          bigIntToNumberSafe supply (10 ^ 6)
     | .error _ =>
        (computeDefi nowIso prev (.ok fastest)).1.protocols.aave.health = "degraded" ∧
        (computeDefi nowIso prev (.ok fastest)).1.protocols.aave.tvlUsdApprox =
          (prev.getD (buildEmpty nowIso)).protocols.aave.tvlUsdApprox) ∧
    (match getBatchResult results 4 >>= hexToBigInt,
           getBatchResult results 5 >>= hexToBigInt with
     | .ok totalSupply, .ok exchangeRate =>
        (computeDefi nowIso prev (.ok fastest)).1.protocols.compound.health = "ok" ∧
        (computeDefi nowIso prev (.ok fastest)).1.protocols.compound.tvlUsdApprox =
          bigIntToNumberSafe ((totalSupply * exchangeRate).tdiv (10 ^ 18)) (10 ^ 6)
     | _, _ =>
        (computeDefi nowIso prev (.ok fastest)).1.protocols.compound.health = "degraded" ∧
        (computeDefi nowIso prev (.ok fastest)).1.protocols.compound.tvlUsdApprox =
          (prev.getD (buildEmpty nowIso)).protocols.compound.tvlUsdApprox) := by
  refine ⟨?_, ?_, ?_, ?_, ?_⟩
  · simp [computeDefi, hp]
  · rintro rfl
    simp [buildEmpty]
  · cases h2 : getBatchResult results 2 >>= hexToBigInt with
    | ok liq => simp [computeDefi, hp, uniswapStep, h2]
    | error e => simp [computeDefi, hp, uniswapStep, h2]
  · cases h3 : getBatchResult results 3 >>= hexToBigInt with
    | ok supply => simp [computeDefi, hp, aaveStep, h3]
    | error e => simp [computeDefi, hp, aaveStep, h3]
  · cases h4 : getBatchResult results 4 >>= hexToBigInt with
    | ok totalSupply =>
      cases h5 : getBatchResult results 5 >>= hexToBigInt with
      | ok exchangeRate => simp [computeDefi, hp, compoundStep, h4, h5]
      | error e => simp [computeDefi, hp, compoundStep, h4, h5]
    | error e =>
      cases h5 : getBatchResult results 5 >>= hexToBigInt with
      | ok exchangeRate => simp [computeDefi, hp, compoundStep, h4, h5]
      | error e2 => simp [computeDefi, hp, compoundStep, h4, h5]

/-- Batch response with results for ids 2, 4 and 5 only; the entry for
id 4 carries a JSON-RPC error. -/
def resultsW : List Json :=
  [ .obj [("id", .num 2), ("result", .str "0x64")],
    .obj [("id", .num 4), ("error", .obj [])],
    .obj [("id", .num 5), ("result", .str "0x1")] ]

/-- Winning race result whose body decodes to `resultsW`. -/
def fastestW : RpcSuccess :=
  ⟨"https://slow.example", "batch-body", some (.arr resultsW)⟩

theorem computeDefi_per_source_isolation_witness :
    fastestW.parsed = some (.arr resultsW) ∧
    (computeDefi "2026-02-03T04:05:06.000Z" none (.ok fastestW)).2 = some fastestW ∧
    (computeDefi "2026-02-03T04:05:06.000Z" none (.ok fastestW)).1.protocols.uniswap_v3.health = "ok" ∧
    (computeDefi "2026-02-03T04:05:06.000Z" none (.ok fastestW)).1.protocols.uniswap_v3.tvlUsdApprox =
      bigIntToNumberSafe 100 (10 ^ 12) ∧
    (computeDefi "2026-02-03T04:05:06.000Z" none (.ok fastestW)).1.protocols.aave.health = "degraded" ∧
    (computeDefi "2026-02-03T04:05:06.000Z" none (.ok fastestW)).1.protocols.aave.tvlUsdApprox = 0 ∧
    (computeDefi "2026-02-03T04:05:06.000Z" none (.ok fastestW)).1.protocols.compound.health = "degraded" := by
  have h := computeDefi_per_source_isolation "2026-02-03T04:05:06.000Z" none fastestW resultsW rfl
  have hu : (computeDefi "2026-02-03T04:05:06.000Z" none (.ok fastestW)).1.protocols.uniswap_v3.health = "ok" ∧
      (computeDefi "2026-02-03T04:05:06.000Z" none (.ok fastestW)).1.protocols.uniswap_v3.tvlUsdApprox =
        bigIntToNumberSafe 100 (10 ^ 12) := h.2.2.1
  have ha : (computeDefi "2026-02-03T04:05:06.000Z" none (.ok fastestW)).1.protocols.aave.health = "degraded" ∧
      (computeDefi "2026-02-03T04:05:06.000Z" none (.ok fastestW)).1.protocols.aave.tvlUsdApprox = 0 :=
    h.2.2.2.1
  have hc : (computeDefi "2026-02-03T04:05:06.000Z" none (.ok fastestW)).1.protocols.compound.health = "degraded" ∧
      (computeDefi "2026-02-03T04:05:06.000Z" none (.ok fastestW)).1.protocols.compound.tvlUsdApprox = 0 :=
    h.2.2.2.2
  exact ⟨rfl, h.1, hu.1, hu.2, ha.1, ha.2, hc.1⟩

/-! Lemmas about the association-list cache operations. -/

theorem lookup_eraseKey {α : Type} (key : String) (m : List (String × α)) :
    List.lookup key (eraseKey key m) = none := by
  induction m with
  | nil => rfl
  | cons p rest ih =>
    rcases p with ⟨k, v⟩
    by_cases h : k = key
    · subst h
      simpa [eraseKey, List.filter_cons] using ih
    · have h2 : (key == k) = false := by
        rw [beq_eq_false_iff_ne]
        exact fun hh => h hh.symm
      simpa [eraseKey, List.filter_cons, h, List.lookup, h2] using ih

theorem lookup_memPut_self (now : Int) (key : String) (payload : CachedSnapshot)
    (ttl : Int) (mem : MemCache) :
    List.lookup key (memPut now key payload ttl mem) = some ⟨now + ttl, payload⟩ := by
  simp [memPut, List.lookup]

theorem lookup_kvPutPayload_self (now : Int) (key : String) (payload : CachedSnapshot)
    (ttl : Int) (kv : KvStore) :
    List.lookup key (kvPutPayload now key payload ttl kv) = some ⟨now + ttl, payload⟩ := by
  simp [kvPutPayload, List.lookup]

theorem memGet_of_lookup_none (now : Int) (mem : MemCache) (key : String)
    (h : List.lookup key mem = none) :
    memGet now mem key = (none, mem) := by
  simp [memGet, h]

theorem memGet_stale_none (now : Int) (mem : MemCache) (key : String)
    (h : ∀ e, List.lookup key mem = some e → e.expiresAt < now) :
    (memGet now mem key).1 = none := by
  cases hf : List.lookup key mem with
  | none => simp [memGet, hf]
  | some e => simp [memGet, hf, h e hf]

theorem memGet_miss_lookup (now : Int) (mem : MemCache) (key : String)
    (h : (memGet now mem key).1 = none) :
    List.lookup key (memGet now mem key).2 = none := by
  cases hf : List.lookup key mem with
  | none => simp [memGet, hf]
  | some e =>
    by_cases hexp : now > e.expiresAt
    · simp [memGet, hf, hexp, lookup_eraseKey]
    · exfalso
      simp [memGet, hf, hexp] at h

theorem kvGet_stale_none (now : Int) (kv : KvStore) (key : String)
    (h : ∀ e, List.lookup key kv = some e → e.expiresAt < now) :
    kvGetValidPayload now kv key = none := by
  cases hf : List.lookup key kv with
  | none => simp [kvGetValidPayload, hf]
  | some e => simp [kvGetValidPayload, hf, h e hf]

theorem memGet_after_put (now1 now2 : Int) (key : String) (payload : CachedSnapshot)
    (ttl : Int) (mem : MemCache) (h : now2 ≤ now1 + ttl) :
    memGet now2 (memPut now1 key payload ttl mem) key =
      (some payload, memPut now1 key payload ttl mem) := by
  have hng : ¬ now2 > now1 + ttl := by omega
  simp [memGet, lookup_memPut_self, hng]

theorem handle_miss_live (key : String) (now : Int) (iso : String)
    (race : Except (List String) RpcSuccess) (st : HandlerState)
    (hm : (memGet now st.mem key).1 = none)
    (hkv : ∀ kvs, st.kv = some kvs → kvGetValidPayload now kvs key = none) :
    handleEdgeDefiAggregator key now iso false race st =
      liveDefi key now iso race (memGet now st.mem key).2 st.kv := by
  cases hk : st.kv with
  | none => simp [handleEdgeDefiAggregator, hm, hk]
  | some kvs => simp [handleEdgeDefiAggregator, hm, hk, hkv kvs hk]

theorem liveDefi_all_miss (key : String) (now : Int) (iso : String)
    (race : Except (List String) RpcSuccess) (mem : MemCache) (kv : Option KvStore)
    (hm : (memGet now mem key).1 = none)
    (hkv : ∀ kvs, kv = some kvs → kvGetValidPayload now kvs key = none) :
    liveDefi key now iso race mem kv =
      (⟨(computeDefi iso none race).1, false, "live"⟩,
       ⟨memPut now key ⟨(computeDefi iso none race).1, false, "live"⟩ DEFI_TTL_MS
          (memGet now mem key).2,
        kv.map (fun kvs =>
          kvPutPayload now key ⟨(computeDefi iso none race).1, false, "live"⟩ DEFI_TTL_MS kvs)⟩,
       true) := by
  cases hk : kv with
  | none => simp [liveDefi, hm, hk]
  | some kvs => simp [liveDefi, hm, hk, hkv kvs hk]

theorem liveDefi_shape (key : String) (now : Int) (iso : String)
    (race : Except (List String) RpcSuccess) (mem : MemCache) (kv : Option KvStore) :
    (liveDefi key now iso race mem kv).2.2 = true ∧
    (liveDefi key now iso race mem kv).1.layer = "live" ∧
    (liveDefi key now iso race mem kv).1.hit = false ∧
    (liveDefi key now iso race mem kv).2.1.mem =
      memPut now key (liveDefi key now iso race mem kv).1 DEFI_TTL_MS (memGet now mem key).2 ∧
    (liveDefi key now iso race mem kv).2.1.kv =
      kv.map (fun kvs =>
        kvPutPayload now key (liveDefi key now iso race mem kv).1 DEFI_TTL_MS kvs) :=
  ⟨rfl, rfl, rfl, rfl, rfl⟩

theorem handle_live_shape (key : String) (now : Int) (iso : String) (force : Bool)
    (race : Except (List String) RpcSuccess) (st : HandlerState)
    (hlive : (handleEdgeDefiAggregator key now iso force race st).2.2 = true) :
    ∃ mem', handleEdgeDefiAggregator key now iso force race st =
      liveDefi key now iso race mem' st.kv := by
  by_cases hforce : force = true
  · exact ⟨st.mem, by simp [handleEdgeDefiAggregator, hforce]⟩
  · have hforce' : force = false := by simpa using hforce
    subst hforce'
    cases hm : (memGet now st.mem key).1 with
    | some p =>
      rw [show handleEdgeDefiAggregator key now iso false race st =
          (⟨p.snap, true, "memory"⟩, ⟨(memGet now st.mem key).2, st.kv⟩, false) from by
        simp [handleEdgeDefiAggregator, hm]] at hlive
      simp at hlive
    | none =>
      cases hk : st.kv with
      | none => exact ⟨(memGet now st.mem key).2, by simp [handleEdgeDefiAggregator, hm, hk]⟩
      | some kvs =>
        cases hq : kvGetValidPayload now kvs key with
        | some q =>
          rw [show handleEdgeDefiAggregator key now iso false race st =
              (⟨q.snap, true, "kv"⟩,
               ⟨memPut now key q DEFI_TTL_MS (memGet now st.mem key).2, st.kv⟩, false) from by
            simp [handleEdgeDefiAggregator, hm, hk, hq]] at hlive
          simp at hlive
        | none =>
          exact ⟨(memGet now st.mem key).2, by simp [handleEdgeDefiAggregator, hm, hk, hq]⟩

/-- A concrete cached value for boundary tests. -/
def cachedW : CachedSnapshot := ⟨buildEmpty "2026-02-03T04:05:06.000Z", false, "live"⟩

/-- C6 (counterexample): the expiry boundary is not exclusive — at
`now == expiresAt`, both `memGet` and `kvGetValidPayload` serve the
entry as fresh (`Date.now() > expiresAt` is false at equality), so an
entry exactly at `expiresAt` is not treated as expired. -/
theorem expiry_boundary_exclusive_cex :
    (memGet 100 [("defi_v1_k", ⟨100, cachedW⟩)] "defi_v1_k").1 = some cachedW ∧
    kvGetValidPayload 100 [("defi_v1_k", ⟨100, cachedW⟩)] "defi_v1_k" = some cachedW :=
  ⟨rfl, rfl⟩

/-- C6 (amended): in both tiers the expiry boundary is inclusive: a
present entry is served as fresh iff `now ≤ expiresAt` (so it is served
at `now == expiresAt`) and is treated as expired iff
`now > expiresAt` strictly. -/
theorem expiry_boundary_inclusive (now : Int) (mem : MemCache) (kv : KvStore)
    (key : String) (e : MemEntry) (envl : KvEnvelope)
    (hm : List.lookup key mem = some e) (hk : List.lookup key kv = some envl) :
    ((memGet now mem key).1 = some e.payload ↔ now ≤ e.expiresAt) ∧
    ((memGet now mem key).1 = none ↔ e.expiresAt < now) ∧
    (kvGetValidPayload now kv key = some envl.payload ↔ now ≤ envl.expiresAt) ∧
    (kvGetValidPayload now kv key = none ↔ envl.expiresAt < now) := by
  unfold memGet kvGetValidPayload
  rw [hm, hk]
  by_cases h1 : now > e.expiresAt <;> by_cases h2 : now > envl.expiresAt <;>
    simp [h1, h2] <;> omega

theorem expiry_boundary_inclusive_witness :
    List.lookup "defi_v1_k" [("defi_v1_k", MemEntry.mk 100 cachedW)] = some ⟨100, cachedW⟩ ∧
    List.lookup "defi_v1_k" [("defi_v1_k", KvEnvelope.mk 100 cachedW)] = some ⟨100, cachedW⟩ ∧
    ((memGet 100 [("defi_v1_k", ⟨100, cachedW⟩)] "defi_v1_k").1 = some cachedW ↔
      (100 : Int) ≤ 100) := by
  refine ⟨rfl, rfl, ?_⟩
  exact (expiry_boundary_inclusive 100 [("defi_v1_k", ⟨100, cachedW⟩)]
    [("defi_v1_k", ⟨100, cachedW⟩)] "defi_v1_k" ⟨100, cachedW⟩ ⟨100, cachedW⟩ rfl rfl).1

/-- C9 (counterexample): `computeDefi` is not a function of the
previous snapshot and batch results alone — two runs with identical
inputs at different wall-clock instants differ in `updatedAt`. -/
theorem computeDefi_clock_dependence_cex :
    (computeDefi "2026-02-03T04:05:06.000Z" none (.error [])).1 ≠
    (computeDefi "2026-02-03T04:05:07.000Z" none (.error [])).1 := by
  intro h
  have := congrArg Snapshot.updatedAt h
  simp [computeDefi, buildEmpty] at this

/-- Runs of `computeDefi` at two clock readings produce the same pair
up to the `updatedAt` field. -/
theorem computeDefi_timestamp_only (iso1 iso2 : String)
    (prev : Option Snapshot) (race : Except (List String) RpcSuccess) :
    (computeDefi iso1 prev race).1 =
      { (computeDefi iso2 prev race).1 with updatedAt := iso1 } ∧
    (computeDefi iso1 prev race).2 = (computeDefi iso2 prev race).2 ∧
    (computeDefi iso1 prev race).1.updatedAt = iso1 := by
  have hbase : (Option.getD prev (buildEmpty iso1)).protocols =
      (Option.getD prev (buildEmpty iso2)).protocols := by
    cases prev <;> simp [buildEmpty]
  have hbn : (Option.getD prev (buildEmpty iso1)).blockNumber =
      (Option.getD prev (buildEmpty iso2)).blockNumber := by
    cases prev <;> simp [buildEmpty]
  cases race with
  | error errs => simp [computeDefi, hbase, hbn]
  | ok fastest =>
    rcases fastest with ⟨u, t, p⟩
    rcases p with _ | j
    · simp [computeDefi, hbase, hbn]
    · cases j with
      | arr elems =>
        cases hb1 : getBatchResult elems 1 >>= hexToBigInt <;>
          simp [computeDefi, hbase, hbn, hb1]
      | null => simp [computeDefi, hbase, hbn]
      | bool b => simp [computeDefi, hbase, hbn]
      | num n => simp [computeDefi, hbase, hbn]
      | str s => simp [computeDefi, hbase, hbn]
      | obj fields => simp [computeDefi, hbase, hbn]

/-- C9 (amended): `computeDefi` is deterministic in the previous
snapshot, the decoded batch results, and the clock reading: with the
clock reading fixed the outputs are equal, and runs at different
instants agree on every field except `updatedAt` (which always equals
the run's clock reading). -/
theorem computeDefi_deterministic_mod_timestamp (iso1 iso2 : String)
    (prev : Option Snapshot) (race : Except (List String) RpcSuccess) :
    (computeDefi iso1 prev race).1.protocols = (computeDefi iso2 prev race).1.protocols ∧
    (computeDefi iso1 prev race).1.blockNumber = (computeDefi iso2 prev race).1.blockNumber ∧
    (computeDefi iso1 prev race).1.chainId = (computeDefi iso2 prev race).1.chainId ∧
    (computeDefi iso1 prev race).1.source = (computeDefi iso2 prev race).1.source ∧
    (computeDefi iso1 prev race).2 = (computeDefi iso2 prev race).2 ∧
    (computeDefi iso1 prev race).1.updatedAt = iso1 ∧
    (iso1 = iso2 → computeDefi iso1 prev race = computeDefi iso2 prev race) := by
  obtain ⟨h1, h2, h3⟩ := computeDefi_timestamp_only iso1 iso2 prev race
  refine ⟨?_, ?_, ?_, ?_, h2, h3, ?_⟩
  · rw [h1]
  · rw [h1]
  · rw [h1]
  · rw [h1]
  · intro h
    subst h
    rfl

theorem computeDefi_deterministic_mod_timestamp_witness :
    (computeDefi "t1" none (.ok fastestW)).1.protocols =
      (computeDefi "t2" none (.ok fastestW)).1.protocols ∧
    (computeDefi "t1" none (.ok fastestW)).1.updatedAt = "t1" ∧
    ("t1" = "t1" →
      computeDefi "t1" none (.ok fastestW) = computeDefi "t1" none (.ok fastestW)) :=
  ⟨(computeDefi_deterministic_mod_timestamp "t1" "t2" none (.ok fastestW)).1,
   (computeDefi_deterministic_mod_timestamp "t1" "t2" none (.ok fastestW)).2.2.2.2.2.1,
   (computeDefi_deterministic_mod_timestamp "t1" "t1" none (.ok fastestW)).2.2.2.2.2.2⟩

/-- C7: with `force` the read path always performs a live recomputation
and serves layer `live`, whatever the tiers hold (in particular even
when a fresh entry was just written); without `force` the tiers are
consulted in order — a fresh memory entry is served as layer `memory`
with no recomputation, otherwise a fresh durable entry as layer `kv`
with no recomputation, otherwise the live path runs. -/
theorem forceRefresh_bypasses_tiers (key : String) (now : Int) (nowIso : String)
    (race : Except (List String) RpcSuccess) (st : HandlerState) :
    ((handleEdgeDefiAggregator key now nowIso true race st).2.2 = true ∧
     (handleEdgeDefiAggregator key now nowIso true race st).1.layer = "live" ∧
     (handleEdgeDefiAggregator key now nowIso true race st).1.hit = false) ∧
    (∀ p, (memGet now st.mem key).1 = some p →
      (handleEdgeDefiAggregator key now nowIso false race st).1 = ⟨p.snap, true, "memory"⟩ ∧
      (handleEdgeDefiAggregator key now nowIso false race st).2.2 = false) ∧
    (∀ kvs q, (memGet now st.mem key).1 = none → st.kv = some kvs →
      kvGetValidPayload now kvs key = some q →
      (handleEdgeDefiAggregator key now nowIso false race st).1 = ⟨q.snap, true, "kv"⟩ ∧
      (handleEdgeDefiAggregator key now nowIso false race st).2.2 = false) ∧
    ((memGet now st.mem key).1 = none →
      (∀ kvs, st.kv = some kvs → kvGetValidPayload now kvs key = none) →
      (handleEdgeDefiAggregator key now nowIso false race st).2.2 = true ∧
      (handleEdgeDefiAggregator key now nowIso false race st).1.layer = "live") := by
  refine ⟨⟨rfl, rfl, rfl⟩, ?_, ?_, ?_⟩
  · intro p hp
    constructor <;> simp [handleEdgeDefiAggregator, hp]
  · intro kvs q hm hk hq
    constructor <;> simp [handleEdgeDefiAggregator, hm, hk, hq]
  · intro hm hkv
    rw [handle_miss_live key now nowIso race st hm hkv]
    exact ⟨(liveDefi_shape key now nowIso race _ st.kv).1,
      (liveDefi_shape key now nowIso race _ st.kv).2.1⟩

/-- State whose memory tier holds a fresh entry for the key. -/
def stFresh : HandlerState := ⟨[("defi_v1_k", ⟨100, cachedW⟩)], none⟩

theorem forceRefresh_bypasses_tiers_witness :
    ((handleEdgeDefiAggregator "defi_v1_k" 50 "t" true (.error ["boom"]) stFresh).2.2 = true ∧
     (handleEdgeDefiAggregator "defi_v1_k" 50 "t" true (.error ["boom"]) stFresh).1.layer = "live") ∧
    (memGet 50 stFresh.mem "defi_v1_k").1 = some cachedW ∧
    (handleEdgeDefiAggregator "defi_v1_k" 50 "t" false (.error ["boom"]) stFresh).1 =
      ⟨cachedW.snap, true, "memory"⟩ ∧
    (handleEdgeDefiAggregator "defi_v1_k" 50 "t" false (.error ["boom"]) stFresh).2.2 = false := by
  obtain ⟨hforce, hmem, -, -⟩ :=
    forceRefresh_bypasses_tiers "defi_v1_k" 50 "t" (.error ["boom"]) stFresh
  have h := hmem cachedW rfl
  exact ⟨⟨hforce.1, hforce.2.1⟩, rfl, h.1, h.2⟩

/-- C8: two consecutive non-forced reads of the same key, starting from
a state with no fresh entry for it, with the second read within the
TTL window opened by the first: the two served snapshots are equal and
only the first read performs a live recomputation — at most one Router
race across the two calls. -/
theorem cache_read_idempotent_within_ttl (key : String) (now1 now2 : Int)
    (iso1 iso2 : String) (race1 race2 : Except (List String) RpcSuccess)
    (st : HandlerState)
    (hmem : ∀ e, List.lookup key st.mem = some e → e.expiresAt < now1)
    (hkv : ∀ kvs e, st.kv = some kvs → List.lookup key kvs = some e → e.expiresAt < now1)
    (hwin : now2 ≤ now1 + DEFI_TTL_MS) :
    (handleEdgeDefiAggregator key now1 iso1 false race1 st).1.snap =
      (handleEdgeDefiAggregator key now2 iso2 false race2
        (handleEdgeDefiAggregator key now1 iso1 false race1 st).2.1).1.snap ∧
    (handleEdgeDefiAggregator key now1 iso1 false race1 st).2.2 = true ∧
    (handleEdgeDefiAggregator key now2 iso2 false race2
      (handleEdgeDefiAggregator key now1 iso1 false race1 st).2.1).2.2 = false := by
  have hm1 : (memGet now1 st.mem key).1 = none := memGet_stale_none now1 st.mem key hmem
  have hkv1 : ∀ kvs, st.kv = some kvs → kvGetValidPayload now1 kvs key = none := by
    intro kvs hk
    exact kvGet_stale_none now1 kvs key (fun e he => hkv kvs e hk he)
  have hm2 : (memGet now1 (memGet now1 st.mem key).2 key).1 = none := by
    rw [memGet_of_lookup_none now1 _ key (memGet_miss_lookup now1 st.mem key hm1)]
  have hcall1 : handleEdgeDefiAggregator key now1 iso1 false race1 st =
      liveDefi key now1 iso1 race1 (memGet now1 st.mem key).2 st.kv :=
    handle_miss_live key now1 iso1 race1 st hm1 hkv1
  have hlive1 : liveDefi key now1 iso1 race1 (memGet now1 st.mem key).2 st.kv =
      (⟨(computeDefi iso1 none race1).1, false, "live"⟩,
       ⟨memPut now1 key ⟨(computeDefi iso1 none race1).1, false, "live"⟩ DEFI_TTL_MS
          (memGet now1 (memGet now1 st.mem key).2 key).2,
        st.kv.map (fun kvs =>
          kvPutPayload now1 key ⟨(computeDefi iso1 none race1).1, false, "live"⟩
            DEFI_TTL_MS kvs)⟩,
       true) :=
    liveDefi_all_miss key now1 iso1 race1 _ st.kv hm2 hkv1
  rw [hcall1, hlive1]
  have hserve := memGet_after_put now1 now2 key
    ⟨(computeDefi iso1 none race1).1, false, "live"⟩ DEFI_TTL_MS
    (memGet now1 (memGet now1 st.mem key).2 key).2 hwin
  refine ⟨?_, rfl, ?_⟩ <;>
    simp [handleEdgeDefiAggregator, hserve]

theorem cache_read_idempotent_within_ttl_witness :
    ((∀ e, List.lookup "defi_v1_k" ([] : MemCache) = some e → e.expiresAt < 1000) ∧
     (1010 : Int) ≤ 1000 + DEFI_TTL_MS) ∧
    (handleEdgeDefiAggregator "defi_v1_k" 1000 "t1" false (.error ["boom"]) ⟨[], none⟩).1.snap =
      (handleEdgeDefiAggregator "defi_v1_k" 1010 "t2" false (.ok fastestW)
        (handleEdgeDefiAggregator "defi_v1_k" 1000 "t1" false (.error ["boom"]) ⟨[], none⟩).2.1).1.snap ∧
    (handleEdgeDefiAggregator "defi_v1_k" 1000 "t1" false (.error ["boom"]) ⟨[], none⟩).2.2 = true ∧
    (handleEdgeDefiAggregator "defi_v1_k" 1010 "t2" false (.ok fastestW)
      (handleEdgeDefiAggregator "defi_v1_k" 1000 "t1" false (.error ["boom"]) ⟨[], none⟩).2.1).2.2 = false := by
  have h := cache_read_idempotent_within_ttl "defi_v1_k" 1000 1010 "t1" "t2"
    (.error ["boom"]) (.ok fastestW) ⟨[], none⟩
    (fun e he => by simp at he)
    (fun kvs e hk he => by simp at hk)
    (by norm_num [DEFI_TTL_MS])
  exact ⟨⟨fun e he => by simp at he, by norm_num [DEFI_TTL_MS]⟩, h.1, h.2.1, h.2.2⟩

/-- C10: whenever a call on the read path performs a live recomputation
— whatever the race outcome, including a total failure that left every
source degraded — the produced value is written to the memory tier,
and to the durable tier when one is bound, with the full 30-second TTL
(`expiresAt = now + DEFI_TTL_MS`); any later non-forced read within
that window serves the cached value from memory with no further
recomputation. -/
theorem live_recompute_written_with_full_ttl (key : String) (now : Int)
    (nowIso : String) (force : Bool) (race : Except (List String) RpcSuccess)
    (st : HandlerState)
    (hlive : (handleEdgeDefiAggregator key now nowIso force race st).2.2 = true) :
    List.lookup key (handleEdgeDefiAggregator key now nowIso force race st).2.1.mem =
      some ⟨now + DEFI_TTL_MS, (handleEdgeDefiAggregator key now nowIso force race st).1⟩ ∧
    (∀ kvs, st.kv = some kvs →
      (handleEdgeDefiAggregator key now nowIso force race st).2.1.kv =
        some (kvPutPayload now key (handleEdgeDefiAggregator key now nowIso force race st).1
          DEFI_TTL_MS kvs) ∧
      List.lookup key (kvPutPayload now key
          (handleEdgeDefiAggregator key now nowIso force race st).1 DEFI_TTL_MS kvs) =
        some ⟨now + DEFI_TTL_MS, (handleEdgeDefiAggregator key now nowIso force race st).1⟩) ∧
    (∀ now2 iso2 race2, now2 ≤ now + DEFI_TTL_MS →
      (handleEdgeDefiAggregator key now2 iso2 false race2
          (handleEdgeDefiAggregator key now nowIso force race st).2.1).1 =
        ⟨(handleEdgeDefiAggregator key now nowIso force race st).1.snap, true, "memory"⟩ ∧
      (handleEdgeDefiAggregator key now2 iso2 false race2
          (handleEdgeDefiAggregator key now nowIso force race st).2.1).2.2 = false) := by
  obtain ⟨mem', heq⟩ := handle_live_shape key now nowIso force race st hlive
  rw [heq]
  obtain ⟨-, -, -, hmem, hkv⟩ := liveDefi_shape key now nowIso race mem' st.kv
  refine ⟨?_, ?_, ?_⟩
  · rw [hmem, lookup_memPut_self]
  · intro kvs hk
    constructor
    · rw [hkv, hk]
      rfl
    · rw [lookup_kvPutPayload_self]
  · intro now2 iso2 race2 hwin
    have hserve := memGet_after_put now now2 key
      (liveDefi key now nowIso race mem' st.kv).1 DEFI_TTL_MS
      (memGet now mem' key).2 hwin
    constructor <;>
      simp [handleEdgeDefiAggregator, hmem, hserve]

theorem live_recompute_written_with_full_ttl_witness :
    (handleEdgeDefiAggregator "defi_v1_k" 2000 "t3" true (.error ["down"]) ⟨[], none⟩).2.2 = true ∧
    List.lookup "defi_v1_k"
        (handleEdgeDefiAggregator "defi_v1_k" 2000 "t3" true (.error ["down"]) ⟨[], none⟩).2.1.mem =
      some ⟨2000 + DEFI_TTL_MS,
        (handleEdgeDefiAggregator "defi_v1_k" 2000 "t3" true (.error ["down"]) ⟨[], none⟩).1⟩ ∧
    (handleEdgeDefiAggregator "defi_v1_k" 2000 "t3" true
        (.error ["down"]) ⟨[], none⟩).1.snap.protocols.uniswap_v3.health = "degraded" ∧
    (handleEdgeDefiAggregator "defi_v1_k" 2500 "t4" false (.ok fastestW)
        (handleEdgeDefiAggregator "defi_v1_k" 2000 "t3" true (.error ["down"]) ⟨[], none⟩).2.1).1 =
      ⟨(handleEdgeDefiAggregator "defi_v1_k" 2000 "t3" true (.error ["down"]) ⟨[], none⟩).1.snap,
        true, "memory"⟩ ∧
    (handleEdgeDefiAggregator "defi_v1_k" 2500 "t4" false (.ok fastestW)
        (handleEdgeDefiAggregator "defi_v1_k" 2000 "t3" true (.error ["down"]) ⟨[], none⟩).2.1).2.2 = false := by
  obtain ⟨hput, -, hserve⟩ :=
    live_recompute_written_with_full_ttl "defi_v1_k" 2000 "t3" true (.error ["down"]) ⟨[], none⟩ rfl
  have hs := hserve 2500 "t4" (.ok fastestW) (by norm_num [DEFI_TTL_MS])
  exact ⟨rfl, hput, rfl, hs.1, hs.2⟩
